import Mathlib

/-!
Shallow embedding of the ThoughtCast recording backend
(src-tauri/src/recording/…) and proofs about it.

Modelling conventions:
* Timestamps (`chrono::DateTime<Utc>`) are modelled as integers counting
  milliseconds; `(b - a).num_milliseconds()` becomes plain integer
  subtraction.  Each Rust call to `Utc::now()` inside one critical section
  is modelled by one explicit `now` parameter.
* `f32`/`f64` sample and duration values are modelled as rationals; the
  square root needed by the RMS level meter lives in `ℝ`.
* `Result<T, String>` becomes `Except String T`.  Since the Rust commands
  mutate the state in place, each command is translated as a function
  returning the post-state together with the `Except` outcome; on the
  error paths the Rust code returns before any mutation, hence the
  post-state there is the unchanged input state.
* File-system and ledger side effects are made explicit in a `World`
  record (recording state, persisted session ledger, written audio
  files).  WAV encoding is abstracted: the audio file content is the
  snapshot of the sample buffer that `write_wav_file` receives.
-/

/-- `RecordingStatus` (state.rs lines 8-12).  The declaration in state.rs
lists `Idle`, `Recording`, `Paused`; lifecycle.rs line 114 additionally
assigns `RecordingStatus::Processing` and spec §4.1 lists `Processing`
as a state, so the embedded type carries the fourth variant that the
lifecycle code requires. -/
inductive RecordingStatus where
  | idle
  | recording
  | paused
  | processing
deriving DecidableEq, Repr

/-- `RecordingState` (state.rs lines 18-24); the shared sample buffer is
inlined as a list of sample values. -/
structure RecordingState where
  status : RecordingStatus
  samples : List ℚ
  start_time : Option ℤ
  pause_start_time : Option ℤ
  total_paused_duration_ms : ℤ
deriving DecidableEq, Repr

/-- `RecordingState::new` (state.rs lines 27-35). -/
def RecordingState.new : RecordingState :=
  { status := RecordingStatus.idle
  , samples := []
  , start_time := none
  , pause_start_time := none
  , total_paused_duration_ms := 0 }

/-- `RecordingState::is_recording` (state.rs lines 38-40). -/
def RecordingState.is_recording (s : RecordingState) : Bool :=
  s.status = RecordingStatus.recording

/-- `RecordingState::is_active` (state.rs lines 43-45). -/
def RecordingState.is_active (s : RecordingState) : Bool :=
  s.status = RecordingStatus.recording || s.status = RecordingStatus.paused

/-- `Session` (models.rs lines 6-25). -/
structure Session where
  id : String
  timestamp : String
  audio_path : String
  duration : ℚ
  preview : String
  transcript_path : String
  clipboard_copied : Bool
  transcription_time_seconds : Option ℚ
  model_path : Option String
deriving DecidableEq, Repr

/-- The world visible to the lifecycle commands: the shared
`RecordingState`, the persisted session ledger (`sessions.json`, newest
first) and the set of written audio files (path ↦ samples written). -/
structure World where
  state : RecordingState
  ledger : List Session
  audioFiles : List (String × List ℚ)
deriving DecidableEq, Repr

/-- `start_capture` (capture.rs lines 15-44), the synchronous part: the
guard, the buffer clear and the state stamping.  The spawned capture
loop performs no state change of its own (it only appends samples while
`is_recording`), so it is outside this sequential model.
`start_recording` (lifecycle.rs lines 14-16) delegates to this. -/
def start_capture (now : ℤ) (s : RecordingState) :
    RecordingState × Except String Unit :=
  if s.is_active then
    (s, Except.error "Recording is already in progress.")
  else
    ({ status := RecordingStatus.recording
     , samples := []
     , start_time := some now
     , pause_start_time := none
     , total_paused_duration_ms := 0 }, Except.ok ())

/-- `pause_recording` (lifecycle.rs lines 22-33). -/
def pause_recording (now : ℤ) (s : RecordingState) :
    RecordingState × Except String Unit :=
  if s.status ≠ RecordingStatus.recording then
    (s, Except.error "No active recording to pause.")
  else
    ({ s with status := RecordingStatus.paused
            , pause_start_time := some now }, Except.ok ())

/-- `resume_recording` (lifecycle.rs lines 38-56). -/
def resume_recording (now : ℤ) (s : RecordingState) :
    RecordingState × Except String Unit :=
  if s.status ≠ RecordingStatus.paused then
    (s, Except.error "No paused recording to resume.")
  else
    let total :=
      match s.pause_start_time with
      | some pause_start => s.total_paused_duration_ms + (now - pause_start)
      | none => s.total_paused_duration_ms
    ({ s with status := RecordingStatus.recording
            , pause_start_time := none
            , total_paused_duration_ms := total }, Except.ok ())

/-- `cancel_recording` (lifecycle.rs lines 61-81).  It performs no
storage call, so ledger and audio files are untouched. -/
def cancel_recording (w : World) : World × Except String Unit :=
  if ¬ w.state.is_active then
    (w, Except.error "No active recording to cancel.")
  else
    ({ w with state :=
        { status := RecordingStatus.idle
        , samples := []
        , start_time := none
        , pause_start_time := none
        , total_paused_duration_ms := 0 } }, Except.ok ())

/-- `calculate_duration` (lifecycle.rs lines 261-270): seconds as an
exact rational in place of the `f64` division by 1000. -/
def calculate_duration (now : ℤ) (s : RecordingState) : ℚ :=
  match s.start_time with
  | some start_time =>
      ((now - start_time - s.total_paused_duration_ms : ℤ) : ℚ) / 1000
  | none => 0

/-- `save_audio_file` (lifecycle.rs lines 273-286) together with
`write_wav_file` (writer.rs): records the current sample buffer under
`audio/<id>.wav`; the PCM encoding itself is out of scope, the file
content is modelled as the snapshot of the buffer. -/
def save_audio_file (id : String) (w : World) : World :=
  { w with audioFiles := ("audio/" ++ id ++ ".wav", w.state.samples) :: w.audioFiles }

/-- `add_session` (storage.rs lines 63-67): prepend to the ledger. -/
def add_session (sess : Session) (w : World) : World :=
  { w with ledger := sess :: w.ledger }

/-- `stop_recording` (lifecycle.rs lines 94-145).  `now` is the clock
value for the open-pause fold and the duration computation (lines
102-111, one critical section); `idStr`/`tsStr` stand for the
timestamp-derived id and RFC 3339 string taken after the bounded drain
wait.  The drain sleep itself is a no-op here: once the status is
`Processing` the capture callback (capture.rs line 127) appends nothing.
Note that no branch clears the sample buffer. -/
def stop_recording (now : ℤ) (idStr tsStr : String) (w : World) :
    World × Except String Session :=
  if ¬ w.state.is_active then
    (w, Except.error "No active recording to stop.")
  else
    let folded :=
      if w.state.status = RecordingStatus.paused then
        match w.state.pause_start_time with
        | some pause_start =>
            { w.state with total_paused_duration_ms :=
                w.state.total_paused_duration_ms + (now - pause_start) }
        | none => w.state
      else w.state
    let duration := calculate_duration now folded
    let processing := { folded with status := RecordingStatus.processing }
    let w1 := save_audio_file idStr { w with state := processing }
    let sess : Session :=
      { id := idStr
      , timestamp := tsStr
      , audio_path := "audio/" ++ idStr ++ ".wav"
      , duration := duration
      , preview := "Processing..."
      , transcript_path := ""
      , clipboard_copied := false
      , transcription_time_seconds := none
      , model_path := none }
    (add_session sess w1, Except.ok sess)

/-- Outcome type mirrored from `TranscriptionResult`
(lifecycle.rs lines 190-193). -/
inductive TranscriptionResult where
  | success (session : Session)
  | error (session_id : String) (error_msg : String)
deriving DecidableEq, Repr

/-- Observable actions of the detached worker spawned by
`orchestrate_async_transcription`: status writes to the shared state and
terminal event emissions. -/
inductive WorkerEvent where
  | setStatus (st : RecordingStatus)
  | emit (r : TranscriptionResult)
deriving DecidableEq, Repr

/-- Body of the thread spawned by `orchestrate_async_transcription`
(lifecycle.rs lines 170-186), as the trace of its observable actions.
`res` is the outcome of `process_transcription_async` (subprocess and
file I/O abstracted).  The `state.lock()` in the worker is modelled as
always succeeding (lock poisoning is out of scope). -/
def orchestrate_async_transcription (res : Except String Session)
    (session_id : String) : List WorkerEvent :=
  [ WorkerEvent.setStatus RecordingStatus.idle
  , match res with
    | Except.ok session => WorkerEvent.emit (TranscriptionResult.success session)
    | Except.error e => WorkerEvent.emit (TranscriptionResult.error session_id e) ]

/-- Is a worker event a write of `Idle` to the shared status? -/
def isSetIdle (ev : WorkerEvent) : Bool :=
  match ev with
  | WorkerEvent.setStatus RecordingStatus.idle => true
  | _ => false

/-- Is a worker event any status write? -/
def isSetStatus (ev : WorkerEvent) : Bool :=
  match ev with
  | WorkerEvent.setStatus _ => true
  | _ => false

/-- Is a worker event a terminal notification? -/
def isEmit (ev : WorkerEvent) : Bool :=
  match ev with
  | WorkerEvent.emit _ => true
  | _ => false

/-- Does an `Except` hold a success value? -/
def exceptIsOk {α : Type} (r : Except String α) : Bool :=
  match r with
  | Except.ok _ => true
  | Except.error _ => false

/-! ### Command traces (claim C2) -/

/-- A lifecycle command together with the clock value at which it runs. -/
inductive TimedCmd where
  | start (t : ℤ)
  | pause (t : ℤ)
  | resume (t : ℤ)
deriving DecidableEq, Repr

/-- Run one command against the state, keeping the post-state whether the
command succeeded or failed (a failed command leaves the state as it
found it, see `C10`). -/
def applyCmd (s : RecordingState) (c : TimedCmd) : RecordingState :=
  match c with
  | TimedCmd.start t => (start_capture t s).1
  | TimedCmd.pause t => (pause_recording t s).1
  | TimedCmd.resume t => (resume_recording t s).1

/-- Run a command sequence left to right. -/
def runCmds (cmds : List TimedCmd) (s : RecordingState) : RecordingState :=
  cmds.foldl applyCmd s

/-- Follows the spec wording for claim C2: the completed pause intervals
of a command sequence as (pause_time, resume_time) pairs, plus the still
open pause, tracked directly on the trace.  The first argument is the
pending open pause (`none` while recording).  A pause is effective only
while recording, a resume only while paused, and a start is never
effective while a session is active, matching §4.1's guards. -/
def pauseIntervals : Option ℤ → List TimedCmd → List (ℤ × ℤ) × Option ℤ
  | op, [] => ([], op)
  | none, TimedCmd.pause t :: rest => pauseIntervals (some t) rest
  | some p, TimedCmd.resume t :: rest =>
      let pr := pauseIntervals none rest
      ((p, t) :: pr.1, pr.2)
  | op, _ :: rest => pauseIntervals op rest

/-- Sum of (resume_time − pause_time) over completed intervals. -/
def intervalSum (l : List (ℤ × ℤ)) : ℤ :=
  (l.map (fun pr => pr.2 - pr.1)).sum

/-! ### Statistics estimator (claim C6),
statistics/models.rs and statistics/estimator.rs -/

/-- `TranscriptionStat` (statistics/models.rs lines 5-15). -/
structure TranscriptionStat where
  audio_duration_seconds : ℚ
  transcription_time_seconds : ℚ
  timestamp : String
  model_path : String
deriving DecidableEq, Repr

/-- `TranscriptionStats` (statistics/models.rs lines 18-24). -/
structure TranscriptionStats where
  version : ℕ
  stats : List TranscriptionStat
deriving DecidableEq, Repr

/-- `EstimateConfidence` (statistics/models.rs lines 47-54). -/
inductive EstimateConfidence where
  | none
  | low
  | medium
  | high
deriving DecidableEq, Repr

/-- `TranscriptionEstimate` (statistics/models.rs lines 37-44). -/
structure TranscriptionEstimate where
  estimated_seconds : ℚ
  confidence : EstimateConfidence
deriving DecidableEq, Repr

/-- estimator.rs line 3. -/
def MIN_STATS_FOR_ESTIMATE : ℕ := 10

/-- estimator.rs line 4. -/
def LOW_CONFIDENCE_THRESHOLD : ℕ := 20

/-- estimator.rs line 5. -/
def MEDIUM_CONFIDENCE_THRESHOLD : ℕ := 50

/-- Insert into an ascending list, preserving order. -/
def insertSorted (x : ℚ) : List ℚ → List ℚ
  | [] => [x]
  | y :: ys => if x ≤ y then x :: y :: ys else y :: insertSorted x ys

/-- Ascending sort; stands in for `ratios.sort_by(partial_cmp)`
(estimator.rs line 38).  Only the sorted value sequence matters for the
median, and that sequence is unique for rational values. -/
def sortRatios (l : List ℚ) : List ℚ := l.foldr insertSorted []

/-- The ratio list of estimator.rs lines 26-31: one
transcription_time / audio_duration ratio per stat with positive
duration. -/
def transcription_ratios (stats : TranscriptionStats) : List ℚ :=
  (stats.stats.filter (fun s => 0 < s.audio_duration_seconds)).map
    (fun s => s.transcription_time_seconds / s.audio_duration_seconds)

/-- `estimate_transcription_time` (estimator.rs lines 16-61). -/
def estimate_transcription_time (stats : TranscriptionStats)
    (audio_duration_seconds : ℚ) : Option TranscriptionEstimate :=
  if stats.stats.length < MIN_STATS_FOR_ESTIMATE then none
  else
    let ratios := transcription_ratios stats
    if ratios = [] then none
    else
      let sorted := sortRatios ratios
      let median_ratio :=
        if sorted.length % 2 = 0 then
          let mid := sorted.length / 2
          (sorted.getD (mid - 1) 0 + sorted.getD mid 0) / 2
        else
          sorted.getD (sorted.length / 2) 0
      let estimated_seconds := audio_duration_seconds * median_ratio
      let confidence :=
        if stats.stats.length < MIN_STATS_FOR_ESTIMATE then EstimateConfidence.none
        else if stats.stats.length < LOW_CONFIDENCE_THRESHOLD then EstimateConfidence.low
        else if stats.stats.length < MEDIUM_CONFIDENCE_THRESHOLD then EstimateConfidence.medium
        else EstimateConfidence.high
      some { estimated_seconds := estimated_seconds, confidence := confidence }

/-- Follows the spec wording for claim C6: the median of an ascending
list, averaging the two middle values for an even count. -/
def median_spec (l : List ℚ) : ℚ :=
  if l.length % 2 = 0 then
    (l.getD (l.length / 2 - 1) 0 + l.getD (l.length / 2) 0) / 2
  else
    l.getD (l.length / 2) 0

/-- Follows the spec wording for claim C6: confidence Low for 10-19
samples, Medium for 20-49, High for 50 or more (callers guarantee at
least 10). -/
def tier_spec (n : ℕ) : EstimateConfidence :=
  if n ≤ 19 then EstimateConfidence.low
  else if n ≤ 49 then EstimateConfidence.medium
  else EstimateConfidence.high

/-- n stats with identical ratio 9/60 = 3/20 (shape of the estimator
test fixture create_test_stats). -/
def identStats (n : ℕ) : TranscriptionStats :=
  { version := 1
  , stats := List.replicate n
      { audio_duration_seconds := 60
      , transcription_time_seconds := 9
      , timestamp := ""
      , model_path := "" } }

/-- Ten stats whose durations are all zero: enough samples for the
count guard, but every ratio is filtered out. -/
def zeroDurStats : TranscriptionStats :=
  { version := 1
  , stats := List.replicate 10
      { audio_duration_seconds := 0
      , transcription_time_seconds := 10
      , timestamp := ""
      , model_path := "" } }

/-! ### Transcript cleaning (claim C7), transcription/text_processor.rs.
Strings are handled as character lists so that every operation is
structural. -/

/-- Split a character list at every newline character; always returns at
least one (possibly empty) part. -/
def splitNl : List Char → List (List Char)
  | [] => [[]]
  | c :: rest =>
    if c = '\n' then [] :: splitNl rest
    else
      match splitNl rest with
      | [] => [[c]]
      | l :: ls => (c :: l) :: ls

/-- Strip one trailing carriage return. -/
def stripCr (l : List Char) : List Char :=
  if l.getLast? = some '\r' then l.dropLast else l

/-- Rust's `str::lines`: split at newline characters, drop a final empty
segment produced by a trailing newline, and strip the carriage return
from every newline-terminated line (the final unterminated line keeps
its carriage return, as in Rust). -/
def rustLines (s : List Char) : List (List Char) :=
  let parts := splitNl s
  let initLines := parts.dropLast.map stripCr
  match parts.getLastD [] with
  | [] => initLines
  | last => initLines ++ [last]

/-- Rust's `str::trim` on a character list.  `Char.isWhitespace` covers
the ASCII whitespace characters; the full Unicode White_Space set is out
of scope. -/
def trimChars (l : List Char) : List Char :=
  ((l.dropWhile Char.isWhitespace).reverse.dropWhile Char.isWhitespace).reverse

/-- Does the list begin with the three characters of "-->"? -/
def isArrowAt : List Char → Bool
  | '-' :: '-' :: '>' :: _ => true
  | _ => false

/-- `trimmed.contains("-->")`: some suffix starts with "-->". -/
def containsArrow : List Char → Bool
  | [] => false
  | c :: rest => isArrowAt (c :: rest) || containsArrow rest

/-- `trimmed.starts_with('[')`. -/
def startsWithBracket : List Char → Bool
  | '[' :: _ => true
  | _ => false

/-- The filter of text_processor.rs lines 11-15: keep a line unless its
trimmed form starts with a bracket and contains the arrow. -/
def keep_line (line : List Char) : Bool :=
  let trimmed := trimChars line
  !startsWithBracket trimmed || !containsArrow trimmed

/-- `clean_transcript` (text_processor.rs lines 8-20). -/
def clean_transcript (raw_transcript : List Char) : List Char :=
  trimChars (List.intercalate ['\n'] ((rustLines raw_transcript).filter keep_line))

/-- Follows the spec wording for claim C7: a timestamp annotation line,
whose trimmed form starts with "[" and contains "-->". -/
def is_timestamp_line (line : List Char) : Bool :=
  startsWithBracket (trimChars line) && containsArrow (trimChars line)

/-! ### Session preview (claim C9), lifecycle.rs lines 327-335.
`text.len()` counts UTF-8 bytes and `&text[..100]` slices 100 bytes, so
the text is a character list measured through `Char.utf8Size`. -/

/-- UTF-8 byte length of a character list (`str::len`). -/
def byteLen (s : List Char) : ℕ := (s.map Char.utf8Size).sum

/-- `&text[..n]`: the characters making up the first `n` UTF-8 bytes;
`none` when byte `n` is not a character boundary or lies beyond the end
(the Rust slice panics there). -/
def takeBytes : ℕ → List Char → Option (List Char)
  | 0, _ => some []
  | _ + 1, [] => none
  | n + 1, c :: rest =>
      if c.utf8Size ≤ n + 1 then
        match takeBytes (n + 1 - c.utf8Size) rest with
        | some l => some (c :: l)
        | none => none
      else none

/-- `generate_preview` (lifecycle.rs lines 327-335); `none` models the
byte-slice panic. -/
def generate_preview (text : List Char) : Option (List Char) :=
  if 100 < byteLen text then
    (takeBytes 100 text).map (fun l => l ++ "...".data)
  else if text = [] then
    some ("No transcript".data)
  else
    some text

/-! ### Audio level meter (claim C5), audio/level_calculator.rs.
Sample values are rational; the root mean square lives in `ℝ`. -/

/-- level_calculator.rs line 4. -/
def SAMPLES_PER_LEVEL : ℕ := 800

/-- level_calculator.rs line 5. -/
def MAX_LEVELS : ℕ := 20

/-- `calculate_rms_amplitude` (level_calculator.rs lines 13-28). -/
noncomputable def calculate_rms_amplitude (samples : List ℚ) : ℝ :=
  if samples = [] then 0
  else
    let sum_of_squares : ℚ := (samples.map (fun x => x * x)).sum
    let mean : ℚ := sum_of_squares / (samples.length : ℚ)
    let rms : ℝ := Real.sqrt ((mean : ℚ) : ℝ)
    min (rms / 0.05) 1

/-- `get_audio_levels` (level_calculator.rs lines 41-77).  The
poisoned-lock fallback (line 44) is out of scope of this sequential
model.  The trailing while-loop that inserts zeros at the front becomes
a prepended zero block. -/
noncomputable def get_audio_levels (samples : List ℚ) : List ℝ :=
  let total := samples.length
  if total < SAMPLES_PER_LEVEL then List.replicate MAX_LEVELS 0
  else
    let num_chunks := min (total / SAMPLES_PER_LEVEL) MAX_LEVELS
    let start_index := total - num_chunks * SAMPLES_PER_LEVEL
    let levels := (List.range num_chunks).map (fun i =>
      calculate_rms_amplitude
        ((samples.drop (start_index + i * SAMPLES_PER_LEVEL)).take SAMPLES_PER_LEVEL))
    List.replicate (MAX_LEVELS - num_chunks) 0 ++ levels

/-- Follows the spec wording for claim C5: the most recent complete
windows of `SAMPLES_PER_LEVEL` samples, oldest first, at most
`MAX_LEVELS` of them. -/
def recent_windows (samples : List ℚ) : List (List ℚ) :=
  let k := min (samples.length / SAMPLES_PER_LEVEL) MAX_LEVELS
  (List.range k).map (fun j =>
    (samples.drop (samples.length - k * SAMPLES_PER_LEVEL + j * SAMPLES_PER_LEVEL)).take
      SAMPLES_PER_LEVEL)

/-! ### Concrete fixtures used by counterexamples and witnesses -/

/-- A state whose transcription phase is still running. -/
def procState : RecordingState :=
  { status := RecordingStatus.processing
  , samples := []
  , start_time := none
  , pause_start_time := none
  , total_paused_duration_ms := 0 }

/-- A world in the middle of a recording holding one captured sample. -/
def recWorld : World :=
  { state :=
      { status := RecordingStatus.recording
      , samples := [(1 : ℚ) / 2]
      , start_time := some 0
      , pause_start_time := none
      , total_paused_duration_ms := 0 }
  , ledger := []
  , audioFiles := [] }

/-- Fifty-one two-byte characters: 51 characters, 102 UTF-8 bytes. -/
def multiByteText : List Char := List.replicate 51 'é'

/-- Status determined by the open pause in any state reachable from a
fresh start by pause/resume commands: recording without an open pause,
paused with one. -/
def statusOf : Option ℤ → RecordingStatus
  | none => RecordingStatus.recording
  | some _ => RecordingStatus.paused

/-- Follows the spec wording for claim C5: root-mean-square amplitude of
a window, normalized by the fixed speech-sensitivity constant 0.05 and
clamped to [0, 1]. -/
noncomputable def rms_level_spec (w : List ℚ) : ℝ :=
  if w = [] then 0
  else
    min (max (Real.sqrt (((w.map (fun x => x * x)).sum : ℚ) / ((w.length : ℚ) : ℝ)) / 0.05) 0) 1

/-! ## Theorems -/

/-- Claim C1 (amended): start fails AlreadyActive exactly when the status
is Recording or Paused — so it also succeeds when the status is
Processing, not only when it is Idle; pause fails NotRecording unless
Recording; resume fails NotPaused unless Paused; cancel and stop fail
NotActive exactly when the status is Idle or Processing; each command
succeeds otherwise. -/
theorem C1_command_guards (s : RecordingState) (w : World) (now : ℤ)
    (idStr tsStr : String) :
    ((start_capture now s).2 = Except.ok () ↔
      s.status = RecordingStatus.idle ∨ s.status = RecordingStatus.processing)
  ∧ (s.status = RecordingStatus.recording ∨ s.status = RecordingStatus.paused →
      (start_capture now s).2 = Except.error "Recording is already in progress.")
  ∧ ((pause_recording now s).2 = Except.ok () ↔ s.status = RecordingStatus.recording)
  ∧ (s.status ≠ RecordingStatus.recording →
      (pause_recording now s).2 = Except.error "No active recording to pause.")
  ∧ ((resume_recording now s).2 = Except.ok () ↔ s.status = RecordingStatus.paused)
  ∧ (s.status ≠ RecordingStatus.paused →
      (resume_recording now s).2 = Except.error "No paused recording to resume.")
  ∧ ((cancel_recording w).2 = Except.ok () ↔
      w.state.status = RecordingStatus.recording ∨ w.state.status = RecordingStatus.paused)
  ∧ (w.state.status = RecordingStatus.idle ∨ w.state.status = RecordingStatus.processing →
      (cancel_recording w).2 = Except.error "No active recording to cancel.")
  ∧ (exceptIsOk (stop_recording now idStr tsStr w).2 = true ↔
      w.state.status = RecordingStatus.recording ∨ w.state.status = RecordingStatus.paused)
  ∧ (w.state.status = RecordingStatus.idle ∨ w.state.status = RecordingStatus.processing →
      (stop_recording now idStr tsStr w).2 = Except.error "No active recording to stop.") := by
  obtain ⟨st, sam, t1, t2, tp⟩ := s
  obtain ⟨⟨wst, wsam, wt1, wt2, wtp⟩, led, af⟩ := w
  cases st <;> cases wst <;>
    simp [start_capture, pause_recording, resume_recording, cancel_recording,
      stop_recording, RecordingState.is_active, exceptIsOk]

/-- Claim C1 counterexample: with the asynchronous transcription phase
still running (status Processing, hence not Idle), start succeeds
instead of failing AlreadyActive, and cancel fails NotActive although
the status is not Idle. -/
theorem C1_command_guards_ce :
    procState.status ≠ RecordingStatus.idle
  ∧ (start_capture 0 procState).2 = Except.ok ()
  ∧ (cancel_recording { state := procState, ledger := [], audioFiles := [] }).2
      = Except.error "No active recording to cancel." :=
  ⟨by decide, rfl, rfl⟩

/-- Witness for C1_command_guards at a concrete state. -/
theorem C1_command_guards_witness :
    (pause_recording 0 procState).2 = Except.error "No active recording to pause."
  ∧ (start_capture 0 RecordingState.new).2 = Except.ok () :=
  ⟨(C1_command_guards procState ⟨procState, [], []⟩ 0 "" "").2.2.2.1 (by decide),
   (C1_command_guards RecordingState.new ⟨RecordingState.new, [], []⟩ 0 "" "").1.mpr
     (Or.inl rfl)⟩

/-- Claim C10: whenever a lifecycle command fails its status guard, the
entire recording state (and for cancel/stop the whole world: ledger and
audio files included) is left exactly as the command found it. -/
theorem C10_failed_guard_frame (s : RecordingState) (w : World) (now : ℤ)
    (idStr tsStr : String) :
    (∀ e, (start_capture now s).2 = Except.error e → (start_capture now s).1 = s)
  ∧ (∀ e, (pause_recording now s).2 = Except.error e → (pause_recording now s).1 = s)
  ∧ (∀ e, (resume_recording now s).2 = Except.error e → (resume_recording now s).1 = s)
  ∧ (∀ e, (cancel_recording w).2 = Except.error e → (cancel_recording w).1 = w)
  ∧ (∀ e, (stop_recording now idStr tsStr w).2 = Except.error e →
      (stop_recording now idStr tsStr w).1 = w) := by
  obtain ⟨st, sam, t1, t2, tp⟩ := s
  obtain ⟨⟨wst, wsam, wt1, wt2, wtp⟩, led, af⟩ := w
  cases st <;> cases wst <;>
    simp [start_capture, pause_recording, resume_recording, cancel_recording,
      stop_recording, RecordingState.is_active]

/-- Witness for C10_failed_guard_frame: a pause issued while the state
is Processing fails and leaves the state unchanged. -/
theorem C10_failed_guard_frame_witness :
    (pause_recording 0 procState).1 = procState :=
  (C10_failed_guard_frame procState ⟨procState, [], []⟩ 0 "" "").2.1
    "No active recording to pause." rfl

/-- Claim C3: when stop succeeds the status is Processing as stop
returns, and the detached transcription worker performs exactly one
status write — setting Idle — whatever the transcription outcome, and
afterwards emits exactly one terminal notification: Success(session) on
success, Error(id, message) on failure. -/
theorem C3_stop_processing_idle_once (w : World) (now : ℤ) (idStr tsStr : String)
    (h : w.state.is_active = true) :
    (stop_recording now idStr tsStr w).1.state.status = RecordingStatus.processing
  ∧ exceptIsOk (stop_recording now idStr tsStr w).2 = true
  ∧ ∀ (res : Except String Session) (sid : String),
      (orchestrate_async_transcription res sid).countP isSetStatus = 1
    ∧ (orchestrate_async_transcription res sid).countP isSetIdle = 1
    ∧ (orchestrate_async_transcription res sid).countP isEmit = 1
    ∧ ∃ r, orchestrate_async_transcription res sid
          = [WorkerEvent.setStatus RecordingStatus.idle, WorkerEvent.emit r]
        ∧ (∀ sess, res = Except.ok sess → r = TranscriptionResult.success sess)
        ∧ (∀ e, res = Except.error e → r = TranscriptionResult.error sid e) := by
  refine ⟨?_, ?_, ?_⟩
  · simp [stop_recording, save_audio_file, add_session, h]
  · simp [stop_recording, save_audio_file, add_session, exceptIsOk, h]
  · intro res sid
    cases res with
    | ok sess =>
        exact ⟨by simp [orchestrate_async_transcription, isSetStatus],
          by simp [orchestrate_async_transcription, isSetIdle],
          by simp [orchestrate_async_transcription, isEmit],
          TranscriptionResult.success sess, rfl, by simp, by simp⟩
    | error e =>
        exact ⟨by simp [orchestrate_async_transcription, isSetStatus],
          by simp [orchestrate_async_transcription, isSetIdle],
          by simp [orchestrate_async_transcription, isEmit],
          TranscriptionResult.error sid e, rfl, by simp, by simp⟩

/-- Witness for C3_stop_processing_idle_once at a concrete world. -/
theorem C3_stop_processing_idle_once_witness :
    (stop_recording 100 "id" "ts" recWorld).1.state.status = RecordingStatus.processing :=
  (C3_stop_processing_idle_once recWorld 100 "id" "ts" rfl).1

/-- Claim C4: from any state in which cancel succeeds (Recording or
Paused), cancel creates no ledger entry and no audio file, discards the
sample buffer and all timing state, and sets the status to Idle. -/
theorem C4_cancel_frame (w : World) (h : w.state.is_active = true) :
    (cancel_recording w).2 = Except.ok ()
  ∧ (cancel_recording w).1.ledger = w.ledger
  ∧ (cancel_recording w).1.audioFiles = w.audioFiles
  ∧ (cancel_recording w).1.state.status = RecordingStatus.idle
  ∧ (cancel_recording w).1.state.samples = []
  ∧ (cancel_recording w).1.state.start_time = none
  ∧ (cancel_recording w).1.state.pause_start_time = none
  ∧ (cancel_recording w).1.state.total_paused_duration_ms = 0 := by
  simp [cancel_recording, h]

/-- Witness for C4_cancel_frame at a concrete world. -/
theorem C4_cancel_frame_witness :
    (cancel_recording recWorld).2 = Except.ok ()
  ∧ (cancel_recording recWorld).1.state.samples = []
  ∧ (cancel_recording recWorld).1.ledger = [] :=
  ⟨(C4_cancel_frame recWorld rfl).1,
   (C4_cancel_frame recWorld rfl).2.2.2.2.1,
   (C4_cancel_frame recWorld rfl).2.1⟩

theorem runCmds_accounting (cmds : List TimedCmd) :
    ∀ s : RecordingState, s.status = statusOf s.pause_start_time →
    (runCmds cmds s).start_time = s.start_time
  ∧ (runCmds cmds s).samples = s.samples
  ∧ (runCmds cmds s).total_paused_duration_ms
      = s.total_paused_duration_ms + intervalSum (pauseIntervals s.pause_start_time cmds).1
  ∧ (runCmds cmds s).pause_start_time = (pauseIntervals s.pause_start_time cmds).2
  ∧ (runCmds cmds s).status = statusOf (runCmds cmds s).pause_start_time := by
  induction cmds with
  | nil =>
      intro s hs
      refine ⟨rfl, rfl, ?_, ?_, hs⟩ <;>
        simp [runCmds, pauseIntervals, intervalSum]
  | cons c rest ih =>
      intro s hs
      cases hop : s.pause_start_time with
      | none =>
          have hst : s.status = RecordingStatus.recording := by
            rw [hs, hop]; rfl
          cases c with
          | start t =>
              have happ : applyCmd s (TimedCmd.start t) = s := by
                simp [applyCmd, start_capture, RecordingState.is_active, hst]
              have h2 := ih s hs
              rw [hop] at h2
              simpa [runCmds, happ, hop, pauseIntervals] using h2
          | pause t =>
              have happ : applyCmd s (TimedCmd.pause t)
                  = { s with status := RecordingStatus.paused
                           , pause_start_time := some t } := by
                simp [applyCmd, pause_recording, hst]
              have h2 := ih { s with status := RecordingStatus.paused
                                   , pause_start_time := some t } (by simp [statusOf])
              simp only [runCmds, List.foldl_cons, happ, hop] at *
              simp only [pauseIntervals]
              exact h2
          | resume t =>
              have happ : applyCmd s (TimedCmd.resume t) = s := by
                simp [applyCmd, resume_recording, hst]
              have h2 := ih s hs
              rw [hop] at h2
              simpa [runCmds, happ, hop, pauseIntervals] using h2
      | some p =>
          have hst : s.status = RecordingStatus.paused := by
            rw [hs, hop]; rfl
          cases c with
          | start t =>
              have happ : applyCmd s (TimedCmd.start t) = s := by
                simp [applyCmd, start_capture, RecordingState.is_active, hst]
              have h2 := ih s hs
              rw [hop] at h2
              simpa [runCmds, happ, hop, pauseIntervals] using h2
          | pause t =>
              have happ : applyCmd s (TimedCmd.pause t) = s := by
                simp [applyCmd, pause_recording, hst]
              have h2 := ih s hs
              rw [hop] at h2
              simpa [runCmds, happ, hop, pauseIntervals] using h2
          | resume t =>
              have happ : applyCmd s (TimedCmd.resume t)
                  = { s with status := RecordingStatus.recording
                           , pause_start_time := none
                           , total_paused_duration_ms :=
                               s.total_paused_duration_ms + (t - p) } := by
                simp [applyCmd, resume_recording, hst, hop]
              have h2 := ih { s with status := RecordingStatus.recording
                                   , pause_start_time := none
                                   , total_paused_duration_ms :=
                                       s.total_paused_duration_ms + (t - p) }
                (by simp [statusOf])
              simp only [runCmds, List.foldl_cons, happ, hop] at *
              simp only [pauseIntervals]
              refine ⟨h2.1, h2.2.1, ?_, ?_, h2.2.2.2.2⟩
              · rw [h2.2.2.1]
                simp [intervalSum]
                ring
              · simpa using h2.2.2.2.1

theorem C2_pause_accounting (cmds : List TimedCmd) (s0 : RecordingState)
    (h0 : s0.is_active = false) (t0 now : ℤ) (ledger : List Session)
    (files : List (String × List ℚ)) (idStr tsStr : String) :
    (stop_recording now idStr tsStr
        { state := runCmds cmds (start_capture t0 s0).1
        , ledger := ledger, audioFiles := files }).1.state.total_paused_duration_ms
      = intervalSum (pauseIntervals none cmds).1
        + (match (pauseIntervals none cmds).2 with
           | some p => now - p
           | none => 0)
  ∧ (stop_recording now idStr tsStr
        { state := runCmds cmds (start_capture t0 s0).1
        , ledger := ledger, audioFiles := files }).2
      = Except.ok
        { id := idStr, timestamp := tsStr
        , audio_path := "audio/" ++ idStr ++ ".wav"
        , duration :=
            ((now - t0 - (intervalSum (pauseIntervals none cmds).1
              + (match (pauseIntervals none cmds).2 with
                 | some p => now - p | none => 0)) : ℤ) : ℚ) / 1000
        , preview := "Processing...", transcript_path := ""
        , clipboard_copied := false, transcription_time_seconds := none
        , model_path := none } := by
  have hstart : (start_capture t0 s0).1
      = { status := RecordingStatus.recording, samples := []
        , start_time := some t0, pause_start_time := none
        , total_paused_duration_ms := 0 } := by
    simp [start_capture, h0]
  rw [hstart]
  have hinv := runCmds_accounting cmds
    { status := RecordingStatus.recording, samples := []
    , start_time := some t0, pause_start_time := none
    , total_paused_duration_ms := 0 } rfl
  rcases hF : runCmds cmds
    { status := RecordingStatus.recording, samples := []
    , start_time := some t0, pause_start_time := none
    , total_paused_duration_ms := 0 } with ⟨fst, fsam, ft, fpt, ftp⟩
  rw [hF] at hinv
  simp only at hinv
  obtain ⟨h1, h2, h3, h4, h5⟩ := hinv
  subst h1
  subst h2
  subst h3
  subst h4
  subst h5
  cases hop : (pauseIntervals none cmds).2 with
  | none =>
      simp [stop_recording, RecordingState.is_active, calculate_duration,
        save_audio_file, add_session, statusOf, hop]
  | some p =>
      simp [stop_recording, RecordingState.is_active, calculate_duration,
        save_audio_file, add_session, statusOf, hop]

theorem C2_pause_accounting_witness :
    (stop_recording 100 "id" "ts"
        { state := runCmds [TimedCmd.pause 10, TimedCmd.resume 30, TimedCmd.pause 50]
            (start_capture 0 RecordingState.new).1
        , ledger := [], audioFiles := [] }).1.state.total_paused_duration_ms = 70 := by
  have h := C2_pause_accounting [TimedCmd.pause 10, TimedCmd.resume 30, TimedCmd.pause 50]
    RecordingState.new rfl 0 100 [] [] "id" "ts"
  simpa [pauseIntervals, intervalSum] using h.1

theorem C8_stop_snapshot (w : World) (now : ℤ) (idStr tsStr : String)
    (h : w.state.is_active = true) :
    exceptIsOk (stop_recording now idStr tsStr w).2 = true
  ∧ (stop_recording now idStr tsStr w).1.audioFiles
      = ("audio/" ++ idStr ++ ".wav", w.state.samples) :: w.audioFiles
  ∧ (stop_recording now idStr tsStr w).1.state.samples = w.state.samples
  ∧ ∀ t : ℤ,
      (start_capture t (stop_recording now idStr tsStr w).1.state).2 = Except.ok ()
    ∧ (start_capture t (stop_recording now idStr tsStr w).1.state).1.samples = [] := by
  obtain ⟨⟨st, sam, t1, t2, tp⟩, led, af⟩ := w
  cases st <;> cases t2 <;>
    simp_all [stop_recording, save_audio_file, add_session, exceptIsOk,
      start_capture, RecordingState.is_active]

theorem C8_stop_snapshot_ce :
    exceptIsOk (stop_recording 100 "id" "ts" recWorld).2 = true
  ∧ (stop_recording 100 "id" "ts" recWorld).1.state.samples ≠ [] :=
  ⟨rfl, by decide⟩

theorem C8_stop_snapshot_witness :
    (stop_recording 100 "id" "ts" recWorld).1.state.samples = recWorld.state.samples :=
  (C8_stop_snapshot recWorld 100 "id" "ts" rfl).2.2.1

theorem C7_clean_transcript (raw : List Char) :
    clean_transcript raw
      = trimChars (List.intercalate ['\n']
          ((rustLines raw).filter (fun l => !(is_timestamp_line l))))
  ∧ clean_transcript ("[00:00:00.000 --> 00:00:02.000]\nHello".data) = "Hello".data
  ∧ clean_transcript ("The formula is [a + b] equals c".data)
      = "The formula is [a + b] equals c".data := by
  refine ⟨?_, by decide, by decide⟩
  have hfun : keep_line = fun l => !(is_timestamp_line l) := by
    funext l
    simp only [keep_line, is_timestamp_line]
    cases startsWithBracket (trimChars l) <;> cases containsArrow (trimChars l) <;> rfl
  rw [clean_transcript, hfun]

theorem byteLen_cons (c : Char) (l : List Char) :
    byteLen (c :: l) = c.utf8Size + byteLen l := by
  simp [byteLen]

theorem takeBytes_of_take (text : List Char) :
    ∀ k n : ℕ, k ≤ text.length → byteLen (text.take k) = n →
      takeBytes n text = some (text.take k) := by
  induction text with
  | nil =>
      intro k n hk hn
      have hk0 : k = 0 := Nat.le_zero.mp hk
      subst hk0
      simp [byteLen] at hn
      subst hn
      simp [takeBytes]
  | cons c rest ih =>
      intro k n hk hn
      cases k with
      | zero =>
          simp [byteLen] at hn
          subst hn
          simp [takeBytes]
      | succ k' =>
          rw [List.take_succ_cons, byteLen_cons] at hn
          have hsz : 0 < c.utf8Size := Char.utf8Size_pos c
          cases n with
          | zero => omega
          | succ m =>
              have hle : c.utf8Size ≤ m + 1 := by omega
              have hr : byteLen (rest.take k') = m + 1 - c.utf8Size := by omega
              have hrec := ih k' (m + 1 - c.utf8Size)
                (Nat.le_of_succ_le_succ (by simpa using hk)) hr
              simp [takeBytes, hle, hrec, List.take_succ_cons]

theorem takeBytes_none_of_no_boundary (text : List Char) :
    ∀ n : ℕ, (∀ k, byteLen (text.take k) ≠ n) → takeBytes n text = none := by
  induction text with
  | nil =>
      intro n h
      cases n with
      | zero => exact absurd rfl (h 0)
      | succ m => simp [takeBytes]
  | cons c rest ih =>
      intro n h
      cases n with
      | zero => exact absurd rfl (h 0)
      | succ m =>
          by_cases hle : c.utf8Size ≤ m + 1
          · have h' : ∀ k, byteLen (rest.take k) ≠ m + 1 - c.utf8Size := by
              intro k hk
              have hsz : 0 < c.utf8Size := Char.utf8Size_pos c
              exact h (k + 1) (by rw [List.take_succ_cons, byteLen_cons, hk]; omega)
            simp [takeBytes, hle, ih _ h']
          · simp [takeBytes, hle]

theorem C9_generate_preview (text : List Char) :
    (text = [] → generate_preview text = some ("No transcript".data))
  ∧ (text ≠ [] → byteLen text ≤ 100 → generate_preview text = some text)
  ∧ (100 < byteLen text → ∀ k, k ≤ text.length → byteLen (text.take k) = 100 →
      generate_preview text = some (text.take k ++ "...".data))
  ∧ (100 < byteLen text → (∀ k, byteLen (text.take k) ≠ 100) →
      generate_preview text = none) := by
  refine ⟨?_, ?_, ?_, ?_⟩
  · intro h
    subst h
    simp [generate_preview, byteLen]
  · intro h1 h2
    simp [generate_preview, Nat.not_lt.mpr h2, h1]
  · intro h1 k hk hbl
    simp [generate_preview, h1, takeBytes_of_take text k 100 hk hbl]
  · intro h1 h2
    simp [generate_preview, h1, takeBytes_none_of_no_boundary text 100 h2]

theorem C9_generate_preview_witness :
    generate_preview ("hi".data) = some ("hi".data)
  ∧ generate_preview [] = some ("No transcript".data) :=
  ⟨(C9_generate_preview ("hi".data)).2.1 (by decide) (by decide),
   (C9_generate_preview []).1 rfl⟩

theorem C9_generate_preview_ce :
    multiByteText.length ≤ 100
  ∧ multiByteText ≠ []
  ∧ generate_preview multiByteText ≠ some multiByteText := by
  refine ⟨by decide, by decide, by decide⟩

theorem getD_replicate_of_lt (r : ℚ) : ∀ n k : ℕ, k < n →
    (List.replicate n r).getD k 0 = r := by
  intro n k h
  have hlt : k < (List.replicate n r).length := by simpa using h
  rw [List.getD_eq_getElem _ _ hlt, List.getElem_replicate]

theorem insertSorted_replicate_self (r : ℚ) : ∀ n : ℕ,
    insertSorted r (List.replicate n r) = List.replicate (n + 1) r := by
  intro n
  cases n with
  | zero => rfl
  | succ m => simp [List.replicate_succ, insertSorted]

theorem sortRatios_replicate_self (r : ℚ) : ∀ n : ℕ,
    sortRatios (List.replicate n r) = List.replicate n r := by
  intro n
  induction n with
  | zero => rfl
  | succ m ih =>
      rw [List.replicate_succ]
      show insertSorted r (sortRatios (List.replicate m r)) = _
      rw [ih, insertSorted_replicate_self, List.replicate_succ]

theorem ratios_identStats (n : ℕ) :
    transcription_ratios (identStats n) = List.replicate n ((9 : ℚ) / 60) := by
  simp [transcription_ratios, identStats, List.filter_replicate]

theorem C6_estimator (stats : TranscriptionStats) (target : ℚ) :
    (stats.stats.length < 10 → estimate_transcription_time stats target = none)
  ∧ (transcription_ratios stats = [] → estimate_transcription_time stats target = none)
  ∧ (10 ≤ stats.stats.length → transcription_ratios stats ≠ [] →
      estimate_transcription_time stats target
        = some { estimated_seconds :=
                   target * median_spec (sortRatios (transcription_ratios stats))
               , confidence := tier_spec stats.stats.length })
  ∧ estimate_transcription_time (identStats 9) 300 = none
  ∧ estimate_transcription_time (identStats 10) 300
      = some { estimated_seconds := 45, confidence := EstimateConfidence.low }
  ∧ estimate_transcription_time (identStats 20) 300
      = some { estimated_seconds := 45, confidence := EstimateConfidence.medium }
  ∧ estimate_transcription_time (identStats 50) 300
      = some { estimated_seconds := 45, confidence := EstimateConfidence.high } := by
  have hinst : ∀ n : ℕ, 10 ≤ n →
      estimate_transcription_time (identStats n) 300
        = some { estimated_seconds := 300 * (((9:ℚ)/60 + (9:ℚ)/60) / 2)
               , confidence :=
                   if n < 20 then EstimateConfidence.low
                   else if n < 50 then EstimateConfidence.medium
                   else EstimateConfidence.high } := by
    intro n hn
    have hlen : (identStats n).stats.length = n := by simp [identStats]
    have hr := ratios_identStats n
    simp only [estimate_transcription_time, hlen, hr, sortRatios_replicate_self,
      MIN_STATS_FOR_ESTIMATE, LOW_CONFIDENCE_THRESHOLD, MEDIUM_CONFIDENCE_THRESHOLD]
    rw [if_neg (by omega), if_neg (by simp; omega)]
    have hlr : (List.replicate n ((9:ℚ)/60)).length = n := by simp
    rw [hlr]
    simp only [Option.some.injEq, TranscriptionEstimate.mk.injEq]
    constructor
    · split_ifs with hpar
      · rw [getD_replicate_of_lt _ _ _ (by omega), getD_replicate_of_lt _ _ _ (by omega)]
      · rw [getD_replicate_of_lt _ _ _ (by omega)]
        norm_num
    · rw [if_neg (by omega)]
  refine ⟨?_, ?_, ?_, ?_, ?_, ?_, ?_⟩
  · intro h
    simp [estimate_transcription_time, MIN_STATS_FOR_ESTIMATE, h]
  · intro h
    simp [estimate_transcription_time, h]
  · intro h10 hne
    simp only [estimate_transcription_time, median_spec, tier_spec,
      MIN_STATS_FOR_ESTIMATE, LOW_CONFIDENCE_THRESHOLD, MEDIUM_CONFIDENCE_THRESHOLD]
    rw [if_neg (by omega), if_neg hne]
    simp only [Option.some.injEq, TranscriptionEstimate.mk.injEq]
    constructor
    · trivial
    · rw [if_neg (by omega)]
      split_ifs <;> first | rfl | omega
  · simp [estimate_transcription_time, identStats, MIN_STATS_FOR_ESTIMATE]
  · rw [hinst 10 (by omega)]
    norm_num
  · rw [hinst 20 (by omega)]
    norm_num
  · rw [hinst 50 (by omega)]
    norm_num

theorem rms_eq_spec : calculate_rms_amplitude = rms_level_spec := by
  funext w
  by_cases h : w = []
  · simp [calculate_rms_amplitude, rms_level_spec, h]
  · have hc : ((((w.map (fun x => x * x)).sum / (w.length : ℚ) : ℚ)) : ℝ)
        = (((w.map (fun x => x * x)).sum : ℚ) : ℝ) / ((w.length : ℚ) : ℝ) := by
      push_cast
      ring
    simp only [calculate_rms_amplitude, rms_level_spec, h, if_false, hc]
    rw [max_eq_left (div_nonneg (Real.sqrt_nonneg _) (by norm_num))]

theorem rms_bounds (w : List ℚ) :
    0 ≤ calculate_rms_amplitude w ∧ calculate_rms_amplitude w ≤ 1 := by
  by_cases h : w = []
  · simp [calculate_rms_amplitude, h]
  · have hnn : 0 ≤ Real.sqrt ((((w.map (fun x => x * x)).sum / (w.length : ℚ) : ℚ)) : ℝ) / 0.05 :=
      div_nonneg (Real.sqrt_nonneg _) (by norm_num)
    simp only [calculate_rms_amplitude, h, if_false]
    exact ⟨le_min hnn zero_le_one, min_le_right _ _⟩

theorem C5_levels (samples : List ℚ) :
    (get_audio_levels samples).length = MAX_LEVELS
  ∧ (samples.length < SAMPLES_PER_LEVEL →
      get_audio_levels samples = List.replicate MAX_LEVELS 0)
  ∧ (SAMPLES_PER_LEVEL ≤ samples.length →
      get_audio_levels samples
        = List.replicate
            (MAX_LEVELS - min (samples.length / SAMPLES_PER_LEVEL) MAX_LEVELS) 0
          ++ (recent_windows samples).map rms_level_spec)
  ∧ (∀ x ∈ get_audio_levels samples, 0 ≤ x ∧ x ≤ 1) := by
  refine ⟨?_, ?_, ?_, ?_⟩
  · by_cases h : samples.length < SAMPLES_PER_LEVEL
    · simp [get_audio_levels, h]
    · simp [get_audio_levels, h]
  · intro h
    simp [get_audio_levels, h]
  · intro h
    rw [← rms_eq_spec]
    simp only [get_audio_levels, recent_windows, List.map_map, if_neg (not_lt.mpr h)]
    rfl
  · intro x hx
    by_cases h : samples.length < SAMPLES_PER_LEVEL
    · simp [get_audio_levels, h] at hx
      simp [hx]
    · simp only [get_audio_levels, if_neg h] at hx
      rcases List.mem_append.mp hx with hz | hm
      · have := List.eq_of_mem_replicate hz
        simp [this]
      · obtain ⟨i, _, rfl⟩ := List.mem_map.mp hm
        exact rms_bounds _

theorem C5_levels_witness :
    get_audio_levels [] = List.replicate MAX_LEVELS 0 :=
  (C5_levels []).2.1 (by norm_num [SAMPLES_PER_LEVEL])

set_option maxRecDepth 10000 in
theorem C5_levels_ce :
    (List.replicate 800 (1:ℚ)).length < MAX_LEVELS * SAMPLES_PER_LEVEL
  ∧ get_audio_levels (List.replicate 800 (1:ℚ)) ≠ List.replicate MAX_LEVELS 0 := by
  have hsum : ((List.replicate 800 (1:ℚ)).map (fun x => x * x)).sum = 800 := by
    rw [List.map_replicate, List.sum_replicate, nsmul_eq_mul]
    norm_num
  have h1 : (((List.replicate 800 (1:ℚ)).map (fun x => x * x)).sum
      / ((List.replicate 800 (1:ℚ)).length : ℚ) : ℚ) = 1 := by
    rw [hsum]
    simp
  have hrms : calculate_rms_amplitude (List.replicate 800 (1:ℚ)) = 1 := by
    simp only [calculate_rms_amplitude]
    rw [if_neg (by simp)]
    rw [h1]
    norm_num [Real.sqrt_one]
  have hval : get_audio_levels (List.replicate 800 (1:ℚ))
      = List.replicate 19 0 ++ [1] := by
    simp only [get_audio_levels, SAMPLES_PER_LEVEL, MAX_LEVELS]
    rw [if_neg (by simp)]
    norm_num [List.take_replicate, hrms]
    rw [show List.range 1 = [0] from rfl]
    simp only [List.map_cons, List.map_nil]
    rw [show (800 - 0 * 800 : ℕ) = 800 from by norm_num, hrms]
  refine ⟨by norm_num [MAX_LEVELS, SAMPLES_PER_LEVEL], ?_⟩
  rw [hval]
  intro h
  have h20 : List.replicate MAX_LEVELS (0:ℝ) = List.replicate 19 0 ++ [0] := by
    rw [show MAX_LEVELS = 19 + 1 by norm_num [MAX_LEVELS], List.replicate_succ']
  rw [h20] at h
  have h2 := List.append_cancel_left h
  simp at h2

theorem C6_estimator_ce :
    10 ≤ zeroDurStats.stats.length
  ∧ estimate_transcription_time zeroDurStats 120 = none := by
  constructor
  · simp [zeroDurStats]
  · have hr : transcription_ratios zeroDurStats = [] := by
      simp [transcription_ratios, zeroDurStats, List.filter_replicate]
    have hlen : zeroDurStats.stats.length = 10 := by simp [zeroDurStats]
    simp only [estimate_transcription_time, hlen, hr, MIN_STATS_FOR_ESTIMATE]
    norm_num

theorem C6_estimator_witness :
    estimate_transcription_time (identStats 9) 300 = none
  ∧ estimate_transcription_time (identStats 10) 300
      = some { estimated_seconds := 45, confidence := EstimateConfidence.low } :=
  ⟨(C6_estimator (identStats 9) 300).1 (by simp [identStats]),
   (C6_estimator (identStats 10) 300).2.2.2.2.1⟩
